import Mathlib

/-!
Verification of the ExaMPM solver driver (`src/ExaMPM_Solver.hpp`).

The C++ code is shallowly embedded: `double` values are modelled as exact
rationals (`ℚ`), `int` values as `ℤ` (loop counters as `ℕ`), and the
side-effecting calls of `Solver::solve` (writers, progress output, the
Kokkos/Cajita/MPI collaborators) are modelled as an explicit event trace
produced by a pure state-passing loop.  Components of the repository whose
sources are not part of this excerpt (`Mesh`, `ProblemManager`,
`TimeIntegrator`, `Cajita::LoadBalancer`) are modelled from the spec; each
such definition carries a doc comment saying so.
-/

namespace ExaMPM

/-! ## Time-step arithmetic of `Solver::solve` (lines 98-99) -/

/-- Conversion of a nonnegative-or-negative `double` to `int` in C++
truncates toward zero: floor for nonnegative values, ceiling for negative
ones. -/
def truncToInt (q : ℚ) : ℤ := if 0 ≤ q then ⌊q⌋ else ⌈q⌉

/-- `int num_step = t_final / _dt;` (ExaMPM_Solver.hpp line 98): a double
division truncated to `int`. -/
def numStep (t_final dt : ℚ) : ℤ := truncToInt (t_final / dt)

/-- `double delta_t = t_final / num_step;` (ExaMPM_Solver.hpp line 99): the
`int` step count is converted back to `double` and used as divisor.  The
division is not guarded against `num_step = 0`; in this rational model,
division by zero yields `0`. -/
def deltaT (t_final dt : ℚ) : ℚ := t_final / (numStep t_final dt : ℚ)

theorem truncToInt_nonneg (q : ℚ) (h : 0 ≤ q) : truncToInt q = ⌊q⌋ := by
  simp [truncToInt, h]

theorem numStep_eq_floor (t dt : ℚ) (h : 0 ≤ t / dt) :
    numStep t dt = ⌊t / dt⌋ := truncToInt_nonneg _ h

/-! ## Data model

`ExaMPM_BoundaryConditions.hpp`, `ExaMPM_Mesh.hpp`, `ExaMPM_ProblemManager.hpp`
and `ExaMPM_TimeIntegrator.hpp` are not part of this excerpt, so the types
below are modelled from the spec; the way `Solver` uses them is taken from
`ExaMPM_Solver.hpp` itself. -/

/-- Three per-axis components of a vector quantity. -/
abbrev Vec3 := ℚ × ℚ × ℚ

/-- Three per-axis integer components (cell counts, node indices). -/
abbrev Idx3 := ℤ × ℤ × ℤ

/-- Modelled from the spec: a `Particle` carries position, velocity, a
deformation measure `J` and a mass (spec section 3). -/
structure Particle where
  position : Vec3
  velocity : Vec3
  J : ℚ
  mass : ℚ
deriving DecidableEq

/-- Modelled from the spec: a `BoundaryCondition` is global node-index
bounds (min/max) plus a rule applied at those bounds (spec section 3); the
fields `min` and `max` are the ones `Solver` assigns at lines 66-67.  The
rule is kept opaque as a tag. -/
structure BoundaryCondition where
  min : Idx3
  max : Idx3
  rule : ℕ
deriving DecidableEq

/-- Modelled from the spec: the result of
`Cajita::LoadBalancer::createBalancedGlobalGrid` keeps the global
resolution of the mesh it is built from and carries a new partition
(spec section 3: repartitioning changes cell ownership, never the bounding
box or resolution).  The partition payload is kept abstract as a list of
split points. -/
structure GlobalGrid where
  globalNumCell : Idx3
  partition : List ℤ
deriving DecidableEq

/-- Modelled from the spec: the `Mesh` owns the global structured grid
definition (bounding box, cell counts, periodicity), the current partition
and the halo widths (spec section 2, `Mesh` constructor call at
lines 62-64). -/
structure Mesh where
  globalBoundingBox : Vec3 × Vec3
  globalNumCell : Idx3
  periodic : Bool × Bool × Bool
  partition : List ℤ
  haloCellWidth : ℤ
  minHalo : ℤ
deriving DecidableEq

/-- Modelled from the spec: `Mesh::minDomainGlobalNodeIndex` reports the
global node-index lower bound of the global domain (spec section 3:
"derived from the GlobalDomain"); the structured grid is indexed from
zero. -/
def Mesh.minDomainGlobalNodeIndex (_m : Mesh) : Idx3 := (0, 0, 0)

/-- Modelled from the spec: `Mesh::maxDomainGlobalNodeIndex` reports the
global node-index upper bound of the global domain, derived from the
global cell counts. -/
def Mesh.maxDomainGlobalNodeIndex (m : Mesh) : Idx3 := m.globalNumCell

/-- Modelled from the spec: `Mesh::newGlobalGrid` rebuilds the mesh from a
load-balanced global grid (`_mesh->newGlobalGrid(global_grid)` at
line 114): the partitioned data is replaced, the global domain is kept. -/
def Mesh.newGlobalGrid (m : Mesh) (g : GlobalGrid) : Mesh :=
  { m with globalNumCell := g.globalNumCell, partition := g.partition }

/-- Modelled from the spec: `LoadBalancer::createBalancedGlobalGrid`
(line 112) produces a balanced global grid for the same global mesh from
the workload sample.  The balancing algorithm itself lives in Cajita and is
abstracted as the function argument `lb`. -/
def createBalancedGlobalGrid (lb : ℚ → List ℤ) (m : Mesh) (work : ℚ) :
    GlobalGrid :=
  { globalNumCell := m.globalNumCell, partition := lb work }

/-- Modelled from the spec: the particle store is the per-process particle
arrays; the model keeps a global view, one list of particles per process
rank (spec section 3). -/
abbrev Dist := List (List Particle)

/-- Total particle count over all processes. -/
def totalCount (dist : Dist) : ℕ := (dist.map List.length).sum

/-- Modelled from the spec: `ProblemManager::communicateParticles`
(line 117) migrates every particle to the process whose owned region
contains it under the current partition: a pure reshuffle, each particle
record moved unchanged to the rank `ownerF` assigns it (spec section 4.2,
`migrate`). -/
def communicateParticles (numRanks : ℕ) (ownerF : Particle → ℕ)
    (dist : Dist) : Dist :=
  (List.range numRanks).map fun r => dist.flatten.filter fun p => ownerF p == r

/-- Modelled from the spec: `TimeIntegrator::step` (lines 106-107) advances
every particle one step from the time increment, the gravity and the
boundary condition; it is stateless and neither creates nor destroys
particles (spec section 4.3).  The physics itself is abstracted as the
per-particle function argument `upd`. -/
def integratorStep (upd : ℚ → ℚ → BoundaryCondition → Particle → Particle)
    (delta_t gravity : ℚ) (bc : BoundaryCondition) (dist : Dist) : Dist :=
  dist.map (List.map (upd delta_t gravity bc))

/-! ## The solver (`ExaMPM::Solver`) -/

/-- The collaborators the solver is generic over: the per-particle physics
of `TimeIntegrator::step`, the number of processes, the ownership map a
mesh induces on particles, and the Cajita balancing algorithm. -/
structure SimParams where
  upd : ℚ → ℚ → BoundaryCondition → Particle → Particle
  numRanks : ℕ
  ownerF : Mesh → Particle → ℕ
  lb : ℚ → List ℤ

/-- The member state of `ExaMPM::Solver` (lines 139-149): `_dt`,
`_gravity`, `_bc`, `_halo_min`, `_mesh`, `_pm` (its particle data), and
`_rank`. -/
structure SolverState where
  dt : ℚ
  gravity : ℚ
  bc : BoundaryCondition
  haloMin : ℤ
  mesh : Mesh
  dist : Dist
  rank : ℕ
deriving DecidableEq

/-- The constructor arguments of `Solver` (lines 46-54); the
initial-condition functor is modelled by the particle distribution it
creates. -/
structure SolverArgs where
  globalBoundingBox : Vec3 × Vec3
  globalNumCell : Idx3
  periodic : Bool × Bool × Bool
  partition : List ℤ
  haloCellWidth : ℤ
  initDist : Dist
  dt : ℚ
  gravity : ℚ
  bc : BoundaryCondition
  rank : ℕ

/-- The `Solver` constructor (lines 55-78): stores `_dt`, `_gravity`, the
caller's boundary condition and `_halo_min = 3`; builds the mesh from the
global description, the initial partition, the halo width and `_halo_min`;
then overwrites `_bc.min` and `_bc.max` with the node-index bounds the new
mesh reports (lines 66-67); finally creates the particle data from the
initial-condition functor. -/
def Solver.construct (a : SolverArgs) : SolverState :=
  let halo_min : ℤ := 3
  let mesh : Mesh :=
    { globalBoundingBox := a.globalBoundingBox
      globalNumCell := a.globalNumCell
      periodic := a.periodic
      partition := a.partition
      haloCellWidth := a.haloCellWidth
      minHalo := halo_min }
  { dt := a.dt
    gravity := a.gravity
    bc := { a.bc with min := mesh.minDomainGlobalNodeIndex
                      max := mesh.maxDomainGlobalNodeIndex }
    haloMin := halo_min
    mesh := mesh
    dist := a.initDist
    rank := a.rank }

/-- One observable action of `Solver::solve`: a particle snapshot write, a
domain-geometry write, a progress print, or one of the per-step calls into
the collaborators. -/
inductive Event where
  | writeParticles (step : ℤ) (time : ℚ)
  | writeDomain (basename : String) (step : ℤ)
  | progress (t : ℕ)
  | integrate
  | sampleWork (w : ℚ)
  | balance
  | rebuildGrid
  | updateMesh
  | migrate (halo : ℤ)
deriving DecidableEq

/-- The body of the loop of `Solver::solve` (lines 101-136), transliterated
line by line: progress print (lines 103-104), integrator step
(lines 106-107), workload sample (line 109), balanced grid (lines 112-113),
mesh rebuild (line 114), particle-store mesh update (line 115), particle
migration (line 117), and the conditional snapshot writes
(lines 119-133).  Returns the new state, the new `time` accumulator
(line 135), and the events in program order. -/
def stepBody (P : SimParams) (write_freq : ℕ) (delta_t : ℚ) (t : ℕ)
    (s : SolverState) (time : ℚ) : SolverState × ℚ × List Event :=
  let ev_progress : List Event :=
    if s.rank = 0 ∧ t % write_freq = 0 then [.progress t] else []
  let dist1 := integratorStep P.upd delta_t s.gravity s.bc s.dist
  let work : ℚ := ((dist1.getD s.rank []).length : ℚ)
  let global_grid := createBalancedGlobalGrid P.lb s.mesh work
  let mesh1 := s.mesh.newGlobalGrid global_grid
  let dist2 := communicateParticles P.numRanks (P.ownerF mesh1) dist1
  let ev_write : List Event :=
    if t % write_freq = 0 then
      [.writeParticles (t + 1) time,
       .writeDomain "domain_act" 0, .writeDomain "domain_lb" 0]
    else []
  ({ s with mesh := mesh1, dist := dist2 },
   time + delta_t,
   ev_progress ++
     [.integrate, .sampleWork work, .balance, .rebuildGrid, .updateMesh,
      .migrate s.haloMin] ++ ev_write)

/-- Runs `stepBody` over the given step indices, threading state and the
`time` accumulator and tagging every event with the index of the loop
iteration that emitted it. -/
def runSteps (P : SimParams) (write_freq : ℕ) (delta_t : ℚ) :
    List ℕ → SolverState → ℚ → SolverState × ℚ × List (ℕ × Event)
  | [], s, time => (s, time, [])
  | t :: ts, s, time =>
    let r1 := stepBody P write_freq delta_t t s time
    let r2 := runSteps P write_freq delta_t ts r1.1 r1.2.1
    (r2.1, r2.2.1, r1.2.2.map (fun e => (t, e)) ++ r2.2.2)

/-- `Solver::solve` (lines 80-137): the initial snapshot writes before the
loop (lines 82-96, tagged with step index `0`), the step-count and
time-step computation (lines 98-99), and the loop over
`t = 0, ..., num_step - 1`. -/
def solve (P : SimParams) (s : SolverState) (t_final : ℚ)
    (write_freq : ℕ) : SolverState × List (ℕ × Event) :=
  let pre : List (ℕ × Event) :=
    [(0, .writeParticles 0 0),
     (0, .writeDomain "domain_act" 0), (0, .writeDomain "domain_lb" 0)]
  let num_step := numStep t_final s.dt
  let delta_t := t_final / (num_step : ℚ)
  let r := runSteps P write_freq delta_t (List.range num_step.toNat) s 0
  (r.1, pre ++ r.2.2)

/-! ## `createSolver` (lines 154-220) -/

/-- Which Kokkos backends the build enables (the
`KOKKOS_ENABLE_*` preprocessor state `createSolver` branches on). -/
structure KokkosConfig where
  serialEnabled : Bool
  openmpEnabled : Bool
  cudaEnabled : Bool
  hipEnabled : Bool

/-- `createSolver` (lines 154-220): compares the device string against
`"serial"`, `"openmp"`, `"cuda"` and `"hip"` in that order; for a
recognized backend it constructs a solver if the backend is enabled in the
build and otherwise throws a `runtime_error`; an unrecognized string throws
`"invalid backend"`.  Thrown errors are modelled as `Except.error` and no
solver state is constructed on an error path. -/
def createSolver (cfg : KokkosConfig) (device : String) (a : SolverArgs) :
    Except String SolverState :=
  if device = "serial" then
    if cfg.serialEnabled then .ok (Solver.construct a)
    else .error "Serial Backend Not Enabled"
  else if device = "openmp" then
    if cfg.openmpEnabled then .ok (Solver.construct a)
    else .error "OpenMP Backend Not Enabled"
  else if device = "cuda" then
    if cfg.cudaEnabled then .ok (Solver.construct a)
    else .error "CUDA Backend Not Enabled"
  else if device = "hip" then
    if cfg.hipEnabled then .ok (Solver.construct a)
    else .error "HIP Backend Not Enabled"
  else .error "invalid backend"

/-! ## Derived observations on traces -/

/-- Is this event a particle-snapshot write? -/
def Event.isWriteParticles : Event → Bool
  | .writeParticles _ _ => true
  | _ => false

/-- Is this event an integrator step? -/
def Event.isIntegrate : Event → Bool
  | .integrate => true
  | _ => false

/-- Is this event a particle migration? -/
def Event.isMigrate : Event → Bool
  | .migrate _ => true
  | _ => false

/-- The step indices at which a particle snapshot is emitted, in emission
order. -/
def snapshotSteps (tr : List (ℕ × Event)) : List ℕ :=
  (tr.filter fun te => te.2.isWriteParticles).map Prod.fst

/-- How many integrator steps a trace contains. -/
def integrateCount (tr : List (ℕ × Event)) : ℕ :=
  tr.countP fun te => te.2.isIntegrate

/-! ## Helper lemmas about the loop -/

theorem stepBody_rank (P : SimParams) (w : ℕ) (d : ℚ) (t : ℕ)
    (s : SolverState) (tm : ℚ) : (stepBody P w d t s tm).1.rank = s.rank :=
  rfl

theorem stepBody_haloMin (P : SimParams) (w : ℕ) (d : ℚ) (t : ℕ)
    (s : SolverState) (tm : ℚ) :
    (stepBody P w d t s tm).1.haloMin = s.haloMin := rfl

theorem stepBody_bc (P : SimParams) (w : ℕ) (d : ℚ) (t : ℕ)
    (s : SolverState) (tm : ℚ) : (stepBody P w d t s tm).1.bc = s.bc := rfl

theorem stepBody_globalNumCell (P : SimParams) (w : ℕ) (d : ℚ) (t : ℕ)
    (s : SolverState) (tm : ℚ) :
    (stepBody P w d t s tm).1.mesh.globalNumCell = s.mesh.globalNumCell :=
  rfl

theorem snapshotSteps_append (a b : List (ℕ × Event)) :
    snapshotSteps (a ++ b) = snapshotSteps a ++ snapshotSteps b := by
  simp [snapshotSteps, List.filter_append]

theorem snapshotSteps_map_tag (t : ℕ) (evs : List Event) :
    snapshotSteps (evs.map fun e => (t, e)) =
      (evs.filter Event.isWriteParticles).map fun _ => t := by
  simp [snapshotSteps, List.filter_map, List.map_map]
  rfl

theorem stepBody_snapshot_filter (P : SimParams) (w : ℕ) (d : ℚ) (t : ℕ)
    (s : SolverState) (tm : ℚ) :
    (stepBody P w d t s tm).2.2.filter Event.isWriteParticles =
      if t % w = 0 then [Event.writeParticles (t + 1) tm] else [] := by
  by_cases h : t % w = 0 <;> by_cases hr : s.rank = 0 <;>
    simp [stepBody, h, hr, Event.isWriteParticles]

theorem snapshotSteps_runSteps (P : SimParams) (w : ℕ) (d : ℚ)
    (ts : List ℕ) : ∀ (s : SolverState) (tm : ℚ),
    snapshotSteps (runSteps P w d ts s tm).2.2 =
      ts.filter fun t => t % w == 0 := by
  induction ts with
  | nil => intro s tm; simp [runSteps, snapshotSteps]
  | cons t ts ih =>
    intro s tm
    simp only [runSteps]
    rw [snapshotSteps_append, snapshotSteps_map_tag, ih,
      stepBody_snapshot_filter]
    by_cases h : t % w = 0 <;> simp [h, List.filter_cons]

theorem snapshotSteps_solve (P : SimParams) (s : SolverState) (tf : ℚ)
    (w : ℕ) :
    snapshotSteps (solve P s tf w).2 =
      0 :: ((List.range (numStep tf s.dt).toNat).filter
        fun t => t % w == 0) := by
  simp only [solve]
  rw [snapshotSteps_append, snapshotSteps_runSteps]
  simp [snapshotSteps, Event.isWriteParticles]

theorem integrateCount_append (a b : List (ℕ × Event)) :
    integrateCount (a ++ b) = integrateCount a + integrateCount b := by
  simp [integrateCount, List.countP_append]

theorem stepBody_integrateCount (P : SimParams) (w : ℕ) (d : ℚ) (t : ℕ)
    (s : SolverState) (tm : ℚ) :
    integrateCount ((stepBody P w d t s tm).2.2.map fun e => (t, e)) = 1 := by
  by_cases h : t % w = 0 <;> by_cases hr : s.rank = 0 <;>
    simp [stepBody, h, hr, integrateCount, List.countP_cons,
      Event.isIntegrate]

theorem integrateCount_runSteps (P : SimParams) (w : ℕ) (d : ℚ)
    (ts : List ℕ) : ∀ (s : SolverState) (tm : ℚ),
    integrateCount (runSteps P w d ts s tm).2.2 = ts.length := by
  induction ts with
  | nil => intro s tm; simp [runSteps, integrateCount]
  | cons t ts ih =>
    intro s tm
    simp only [runSteps]
    rw [integrateCount_append, stepBody_integrateCount, ih]
    simp [Nat.add_comm]

theorem integrateCount_solve (P : SimParams) (s : SolverState) (tf : ℚ)
    (w : ℕ) :
    integrateCount (solve P s tf w).2 = (numStep tf s.dt).toNat := by
  simp only [solve]
  rw [integrateCount_append, integrateCount_runSteps]
  simp [integrateCount, Event.isIntegrate]

theorem stepBody_migrate_filter (P : SimParams) (w : ℕ) (d : ℚ) (t : ℕ)
    (s : SolverState) (tm : ℚ) :
    (stepBody P w d t s tm).2.2.filter Event.isMigrate =
      [Event.migrate s.haloMin] := by
  by_cases h : t % w = 0 <;> by_cases hr : s.rank = 0 <;>
    simp [stepBody, h, hr, Event.isMigrate]

theorem migrate_filter_runSteps (P : SimParams) (w : ℕ) (d : ℚ)
    (ts : List ℕ) : ∀ (s : SolverState) (tm : ℚ),
    ((runSteps P w d ts s tm).2.2.map Prod.snd).filter Event.isMigrate =
      List.replicate ts.length (Event.migrate s.haloMin) := by
  induction ts with
  | nil => intro s tm; simp [runSteps]
  | cons t ts ih =>
    intro s tm
    simp only [runSteps, List.map_append, List.filter_append, List.map_map]
    have h1 : (Prod.snd ∘ fun e => ((t, e) : ℕ × Event)) = id := rfl
    rw [h1, List.map_id, stepBody_migrate_filter, ih, stepBody_haloMin]
    simp [List.replicate_succ]

theorem migrate_filter_solve (P : SimParams) (s : SolverState) (tf : ℚ)
    (w : ℕ) :
    ((solve P s tf w).2.map Prod.snd).filter Event.isMigrate =
      List.replicate (numStep tf s.dt).toNat (Event.migrate s.haloMin) := by
  simp only [solve, List.map_append, List.filter_append]
  rw [migrate_filter_runSteps]
  simp [Event.isMigrate]

/-- The events one loop iteration of `solve` emits, in program order:
the optional progress print, then the integrator step, the workload
sample, the load-balance call, the mesh rebuild, the particle-store mesh
update and the migration, and last the optional snapshot writes.  The
workload value `wk` and the written time `tm` depend on the state the
iteration starts from. -/
def iterationEvents (rank : ℕ) (halo : ℤ) (w t : ℕ) (wk tm : ℚ) :
    List Event :=
  (if rank = 0 ∧ t % w = 0 then [Event.progress t] else []) ++
  [Event.integrate, Event.sampleWork wk, Event.balance, Event.rebuildGrid,
   Event.updateMesh, Event.migrate halo] ++
  (if t % w = 0 then
    [Event.writeParticles (t + 1) tm, Event.writeDomain "domain_act" 0,
     Event.writeDomain "domain_lb" 0]
   else [])

theorem stepBody_events (P : SimParams) (w : ℕ) (d : ℚ) (t : ℕ)
    (s : SolverState) (tm : ℚ) :
    ∃ wk : ℚ,
      (stepBody P w d t s tm).2.2 =
        iterationEvents s.rank s.haloMin w t wk tm :=
  ⟨_, rfl⟩

theorem runSteps_tag_mem (P : SimParams) (w : ℕ) (d : ℚ) (ts : List ℕ) :
    ∀ (s : SolverState) (tm : ℚ) (te : ℕ × Event),
    te ∈ (runSteps P w d ts s tm).2.2 → te.1 ∈ ts := by
  induction ts with
  | nil => intro s tm te h; simp [runSteps] at h
  | cons t ts ih =>
    intro s tm te h
    simp only [runSteps, List.mem_append] at h
    rcases h with h | h
    · obtain ⟨e, _, rfl⟩ := List.mem_map.mp h
      exact List.mem_cons_self _ _
    · exact List.mem_cons_of_mem _ (ih _ _ _ h)

theorem runSteps_filter_tag (P : SimParams) (w : ℕ) (d : ℚ)
    (ts : List ℕ) : ∀ (s : SolverState) (tm : ℚ), ts.Nodup →
    ∀ t ∈ ts, ∃ wk tm' : ℚ,
      ((runSteps P w d ts s tm).2.2.filter fun te => te.1 == t).map
        Prod.snd = iterationEvents s.rank s.haloMin w t wk tm' := by
  induction ts with
  | nil => intro s tm _ t ht; simp at ht
  | cons t0 ts ih =>
    intro s tm hnd t ht
    have hnd0 : t0 ∉ ts := (List.nodup_cons.mp hnd).1
    simp only [runSteps, List.filter_append, List.map_append]
    rcases List.mem_cons.mp ht with rfl | hts
    · have hrest :
          ((runSteps P w d ts (stepBody P w d t s tm).1
            (stepBody P w d t s tm).2.1).2.2.filter
              fun te => te.1 == t) = [] := by
        rw [List.filter_eq_nil_iff]
        intro te hte
        have hmem := runSteps_tag_mem P w d ts _ _ te hte
        simp only [beq_iff_eq]
        exact fun h => hnd0 (h ▸ hmem)
      have hmap :
          (((stepBody P w d t s tm).2.2.map fun e => (t, e)).filter
            fun te => te.1 == t) =
          (stepBody P w d t s tm).2.2.map fun e => (t, e) := by
        rw [List.filter_eq_self]
        intro te hte
        obtain ⟨e, _, rfl⟩ := List.mem_map.mp hte
        simp
      rw [hmap, hrest, List.map_map]
      obtain ⟨wk, hev⟩ := stepBody_events P w d t s tm
      refine ⟨wk, tm, ?_⟩
      have h1 : (Prod.snd ∘ fun e => ((t, e) : ℕ × Event)) = id := rfl
      rw [h1, List.map_id, hev]
      simp
    · have htne : t ≠ t0 := fun h => hnd0 (h ▸ hts)
      have hmap :
          (((stepBody P w d t0 s tm).2.2.map fun e => (t0, e)).filter
            fun te => te.1 == t) = [] := by
        rw [List.filter_eq_nil_iff]
        intro te hte
        obtain ⟨e, _, rfl⟩ := List.mem_map.mp hte
        simp only [beq_iff_eq]
        exact fun h => htne h.symm
      rw [hmap]
      obtain ⟨wk, tm', h⟩ :=
        ih (stepBody P w d t0 s tm).1 (stepBody P w d t0 s tm).2.1
          (List.nodup_cons.mp hnd).2 t hts
      refine ⟨wk, tm', ?_⟩
      rw [h, stepBody_rank, stepBody_haloMin]
      simp

/-! ## Conservation of particles under migration -/

theorem totalCount_flatten (dist : Dist) :
    totalCount dist = dist.flatten.length := by
  simp [totalCount]

theorem count_filter_beq (f : Particle → ℕ) (r : ℕ) (q : Particle)
    (l : List Particle) :
    (l.filter fun p => f p == r).count q =
      if f q = r then l.count q else 0 := by
  induction l with
  | nil => simp
  | cons p tl ih =>
    by_cases hp : f p = r
    · rw [List.filter_cons_of_pos (by simp [hp])]
      by_cases hq : q = p
      · subst hq
        simp [List.count_cons_self, ih, hp]
      · rw [List.count_cons_of_ne hq, List.count_cons_of_ne hq, ih]
    · rw [List.filter_cons_of_neg (by simp [hp])]
      by_cases hq : q = p
      · subst hq
        simp [ih, hp]
      · rw [List.count_cons_of_ne hq, ih]

theorem sum_map_range_ite (c : ℕ) (k : ℕ) :
    ∀ R : ℕ, k < R →
      ((List.range R).map fun r => if k = r then c else 0).sum = c := by
  intro R
  induction R with
  | zero => omega
  | succ R ih =>
    intro hk
    rw [List.range_succ, List.map_append, List.sum_append]
    by_cases h : k = R
    · subst h
      have hz : ((List.range k).map fun r => if k = r then c else 0).sum
          = 0 := by
        apply List.sum_eq_zero
        intro x hx
        obtain ⟨r, hr, rfl⟩ := List.mem_map.mp hx
        simp only [List.mem_range] at hr
        simp [Nat.ne_of_gt hr]
      simp [hz]
    · have : k < R := by omega
      simp [ih this, h]

theorem count_flatten_eq_sum (q : Particle) : ∀ L : List (List Particle),
    L.flatten.count q = (L.map fun l => l.count q).sum := by
  intro L
  induction L with
  | nil => simp
  | cons l L ih => simp [List.count_append, ih]

theorem count_communicateParticles (R : ℕ) (f : Particle → ℕ) (dist : Dist)
    (h : ∀ p ∈ dist.flatten, f p < R) (q : Particle) :
    (communicateParticles R f dist).flatten.count q =
      dist.flatten.count q := by
  rw [communicateParticles, count_flatten_eq_sum, List.map_map]
  have hcomp : (Function.comp (fun l => List.count q l)
        fun r => List.filter (fun p => f p == r) dist.flatten) =
      fun r => (dist.flatten.filter fun p => f p == r).count q := rfl
  have hmap : ((List.range R).map
        fun r => (dist.flatten.filter fun p => f p == r).count q) =
      (List.range R).map
        fun r => if f q = r then dist.flatten.count q else 0 := by
    apply List.map_congr_left
    intro r _
    exact count_filter_beq f r q dist.flatten
  by_cases hq : q ∈ dist.flatten
  · rw [hcomp, hmap]
    exact sum_map_range_ite _ _ R (h q hq)
  · have hc : dist.flatten.count q = 0 := List.count_eq_zero.mpr hq
    rw [hc, hcomp, hmap, hc]
    apply List.sum_eq_zero
    intro x hx
    obtain ⟨r, _, rfl⟩ := List.mem_map.mp hx
    simp

theorem communicateParticles_perm (R : ℕ) (f : Particle → ℕ) (dist : Dist)
    (h : ∀ p ∈ dist.flatten, f p < R) :
    (communicateParticles R f dist).flatten.Perm dist.flatten :=
  List.perm_iff_count.mpr (count_communicateParticles R f dist h)

theorem totalCount_communicateParticles (R : ℕ) (f : Particle → ℕ)
    (dist : Dist) (h : ∀ p ∈ dist.flatten, f p < R) :
    totalCount (communicateParticles R f dist) = totalCount dist := by
  rw [totalCount_flatten, totalCount_flatten]
  exact (communicateParticles_perm R f dist h).length_eq

theorem totalCount_integratorStep
    (upd : ℚ → ℚ → BoundaryCondition → Particle → Particle)
    (d g : ℚ) (bc : BoundaryCondition) (dist : Dist) :
    totalCount (integratorStep upd d g bc dist) = totalCount dist := by
  simp only [integratorStep, totalCount, List.map_map]
  congr 1
  apply List.map_congr_left
  intro l _
  simp

theorem stepBody_totalCount (P : SimParams) (w : ℕ) (d : ℚ) (t : ℕ)
    (s : SolverState) (tm : ℚ)
    (h : ∀ m p, P.ownerF m p < P.numRanks) :
    totalCount (stepBody P w d t s tm).1.dist = totalCount s.dist := by
  have hd : (stepBody P w d t s tm).1.dist =
      communicateParticles P.numRanks
        (P.ownerF (s.mesh.newGlobalGrid (createBalancedGlobalGrid P.lb
          s.mesh (((integratorStep P.upd d s.gravity s.bc s.dist).getD
            s.rank []).length : ℚ))))
        (integratorStep P.upd d s.gravity s.bc s.dist) := rfl
  rw [hd, totalCount_communicateParticles _ _ _ fun p _ => h _ p,
    totalCount_integratorStep]

/-! ## Concrete fixtures used by witnesses -/

/-- A concrete particle. -/
def sampleParticle : Particle :=
  { position := (0, 0, 0), velocity := (0, 0, 0), J := 1, mass := 1 }

/-- A concrete caller-supplied boundary condition whose bounds differ from
the mesh-derived ones. -/
def sampleBC : BoundaryCondition :=
  { min := (5, 5, 5), max := (9, 9, 9), rule := 7 }

/-- A concrete set of solver constructor arguments with `dt = 1/100`. -/
def sampleArgs : SolverArgs :=
  { globalBoundingBox := ((0, 0, 0), (1, 1, 1))
    globalNumCell := (10, 10, 10)
    periodic := (false, false, false)
    partition := [5]
    haloCellWidth := 4
    initDist := [[sampleParticle]]
    dt := 1/100
    gravity := 98/10
    bc := sampleBC
    rank := 0 }

/-- The solver state the constructor builds from `sampleArgs`. -/
def sampleState : SolverState := Solver.construct sampleArgs

/-- Concrete trivial collaborators: identity physics, one process, constant
ownership, constant balancer. -/
def sampleParams : SimParams :=
  { upd := fun _ _ _ p => p
    numRanks := 1
    ownerF := fun _ _ => 0
    lb := fun _ => [] }

/-! ## Claims -/

/-- C1 (counterexample): the claim quantifies over every run
configuration, but for `t_final = 1/200` and `dt_nominal = 1/100` the code
computes `num_step = 0`, so `delta_t = t_final / 0` and
`delta_t * num_step = 0 ≠ t_final`. -/
theorem exact_end_time_fails_for_small_t_final :
    ¬ (deltaT (1/200) (1/100) * (numStep (1/200) (1/100) : ℚ) = 1/200) := by
  norm_num [deltaT, numStep, truncToInt]

/-- C1 (amended): for every run configuration with
`0 < dt_nominal ≤ t_final`, `solve` computes
`num_step = ⌊t_final / dt_nominal⌋ ≥ 1` and a corrected
`delta_t = t_final / num_step` with `delta_t * num_step = t_final`
exactly; in particular, for `t_final = 1` and `dt_nominal = 1/100` it
computes `num_step = 100` and `delta_t = 1/100`. -/
theorem solve_exact_end_time :
    (∀ t dt : ℚ, 0 < dt → dt ≤ t →
      numStep t dt = ⌊t / dt⌋ ∧ 1 ≤ numStep t dt ∧
      deltaT t dt * (numStep t dt : ℚ) = t) ∧
    numStep 1 (1/100) = 100 ∧ deltaT 1 (1/100) = 1/100 := by
  refine ⟨fun t dt hdt hle => ?_, ?_, ?_⟩
  · have ht : 0 < t := lt_of_lt_of_le hdt hle
    have h0 : (0:ℚ) ≤ t / dt := le_of_lt (div_pos ht hdt)
    have h1 : (1:ℚ) ≤ t / dt := (one_le_div hdt).mpr hle
    have hf : numStep t dt = ⌊t / dt⌋ := numStep_eq_floor t dt h0
    have hpos : 1 ≤ numStep t dt := by
      rw [hf]
      exact Int.le_floor.mpr (by exact_mod_cast h1)
    refine ⟨hf, hpos, ?_⟩
    have hne : (numStep t dt : ℚ) ≠ 0 := by
      exact_mod_cast (by omega : numStep t dt ≠ 0)
    simp [deltaT, div_mul_cancel₀ _ hne]
  · norm_num [numStep, truncToInt]
  · norm_num [deltaT, numStep, truncToInt]

/-- C1 witness: the amended theorem applied at `t_final = 1`,
`dt_nominal = 1/100`. -/
theorem solve_exact_end_time_witness :
    0 < (1/100 : ℚ) ∧ (1/100 : ℚ) ≤ 1 ∧
    deltaT 1 (1/100) * (numStep 1 (1/100) : ℚ) = 1 :=
  ⟨by norm_num, by norm_num,
    (solve_exact_end_time.1 1 (1/100) (by norm_num) (by norm_num)).2.2⟩

/-- C9: for any `t_final` with `0 < t_final < dt`, `solve` computes
`num_step = 0`, the unguarded `delta_t = t_final / num_step` is literally
a division by zero (equal to `t_final / 0`; no check on `num_step`
exists), and no loop iteration runs. -/
theorem solve_divides_by_zero_for_small_t_final :
    ∀ t dt : ℚ, 0 < t → t < dt →
      numStep t dt = 0 ∧ deltaT t dt = t / 0 ∧
      ∀ (P : SimParams) (s : SolverState) (w : ℕ), s.dt = dt →
        integrateCount (solve P s t w).2 = 0 := by
  intro t dt h0 h1
  have hdt : 0 < dt := lt_trans h0 h1
  have ha : (0:ℚ) ≤ t / dt := le_of_lt (div_pos h0 hdt)
  have hb : t / dt < 1 := (div_lt_one hdt).mpr h1
  have hz : numStep t dt = 0 := by
    rw [numStep, truncToInt, if_pos ha]
    exact Int.floor_eq_zero_iff.mpr ⟨ha, hb⟩
  refine ⟨hz, ?_, ?_⟩
  · rw [deltaT, hz]
    norm_num
  · intro P s w hs
    rw [integrateCount_solve, hs, hz]
    rfl

/-- C9 witness: the theorem applied at `t_final = 1/200`, `dt = 1/100`,
with the loop-count conclusion instantiated on the concrete solver
state (whose `dt` is `1/100`). -/
theorem solve_divides_by_zero_for_small_t_final_witness :
    numStep (1/200) (1/100) = 0 ∧
    integrateCount (solve sampleParams sampleState (1/200) 5).2 = 0 :=
  let h := solve_divides_by_zero_for_small_t_final (1/200) (1/100)
    (by norm_num) (by norm_num)
  ⟨h.1, h.2.2 sampleParams sampleState 5 rfl⟩

/-- C5: for every `t_final` and `write_freq`, `solve` runs exactly
`num_step` loop iterations, each performing one integrator step, with no
early exit; `num_step` is the value the code computes from `t_final` and
the configured time step. -/
theorem solve_runs_exactly_num_step_iterations :
    ∀ (P : SimParams) (s : SolverState) (tf : ℚ) (w : ℕ),
      integrateCount (solve P s tf w).2 = (numStep tf s.dt).toNat ∧
      numStep tf s.dt = truncToInt (tf / s.dt) :=
  fun P s tf w => ⟨integrateCount_solve P s tf w, rfl⟩

/-- C2: a snapshot is emitted at step index `i` iff `i = 0` (the write
before the loop) or `i` is a loop index with `i % write_freq = 0`; in
particular for `dt = 1/100`, `t_final = 23/100` (so `num_step = 23`) and
`write_freq = 5` the emitted step indices are `0, 5, 10, 15, 20` and no
others (`0` twice: once before the loop and once at loop index `0`). -/
theorem solve_snapshot_cadence :
    (∀ (P : SimParams) (s : SolverState) (tf : ℚ) (w : ℕ) (i : ℕ),
      i ∈ snapshotSteps (solve P s tf w).2 ↔
        i = 0 ∨ (i < (numStep tf s.dt).toNat ∧ i % w = 0)) ∧
    ∀ (P : SimParams) (s : SolverState), s.dt = 1/100 →
      snapshotSteps (solve P s (23/100) 5).2 = [0, 0, 5, 10, 15, 20] := by
  constructor
  · intro P s tf w i
    rw [snapshotSteps_solve]
    simp [List.mem_filter, List.mem_range]
  · intro P s hs
    rw [snapshotSteps_solve, hs]
    have h23 : numStep (23/100) (1/100) = 23 := by
      norm_num [numStep, truncToInt]
    rw [h23]
    decide

/-- C2 witness: the concrete cadence conclusion on the sample solver
state. -/
theorem solve_snapshot_cadence_witness :
    sampleState.dt = 1/100 ∧
    snapshotSteps (solve sampleParams sampleState (23/100) 5).2 =
      [0, 0, 5, 10, 15, 20] :=
  ⟨rfl, solve_snapshot_cadence.2 sampleParams sampleState rfl⟩

/-- The boundary condition's node-index bounds agree with what the
solver's current mesh reports. -/
def bcBoundsCurrent (s : SolverState) : Prop :=
  s.bc.min = s.mesh.minDomainGlobalNodeIndex ∧
  s.bc.max = s.mesh.maxDomainGlobalNodeIndex

instance (s : SolverState) : Decidable (bcBoundsCurrent s) := by
  unfold bcBoundsCurrent
  infer_instance

theorem stepBody_bcBounds (P : SimParams) (w : ℕ) (d : ℚ) (t : ℕ)
    (s : SolverState) (tm : ℚ) (h : bcBoundsCurrent s) :
    bcBoundsCurrent (stepBody P w d t s tm).1 := by
  unfold bcBoundsCurrent at h ⊢
  rw [stepBody_bc]
  exact ⟨h.1, h.2⟩

theorem runSteps_bcBounds (P : SimParams) (w : ℕ) (d : ℚ) (ts : List ℕ) :
    ∀ (s : SolverState) (tm : ℚ), bcBoundsCurrent s →
      bcBoundsCurrent (runSteps P w d ts s tm).1 := by
  induction ts with
  | nil => intro s tm h; exact h
  | cons t ts ih =>
    intro s tm h
    exact ih _ _ (stepBody_bcBounds P w d t s tm h)

/-- C3: the boundary-condition bounds the integrator uses always equal the
bounds the current mesh reports: the constructor establishes this, every
loop iteration (integrate, repartition, rebuild, migrate) preserves it,
and hence it holds for a whole run of `solve`.  (After a repartition the
global domain, and with it the mesh's reported node-index bounds, is
unchanged, so the bounds held in `_bc` are never stale.) -/
theorem bc_bounds_track_current_mesh :
    (∀ a : SolverArgs, bcBoundsCurrent (Solver.construct a)) ∧
    (∀ (P : SimParams) (w : ℕ) (d : ℚ) (t : ℕ) (s : SolverState) (tm : ℚ),
      bcBoundsCurrent s → bcBoundsCurrent (stepBody P w d t s tm).1) ∧
    (∀ (P : SimParams) (s : SolverState) (tf : ℚ) (w : ℕ),
      bcBoundsCurrent s → bcBoundsCurrent (solve P s tf w).1) := by
  refine ⟨fun a => ⟨rfl, rfl⟩, stepBody_bcBounds, ?_⟩
  intro P s tf w h
  exact runSteps_bcBounds P w _ _ s 0 h

/-- C3 witness: the invariant holds on the concrete constructed state and,
by the theorem, after a concrete run. -/
theorem bc_bounds_track_current_mesh_witness :
    bcBoundsCurrent sampleState ∧
    bcBoundsCurrent (solve sampleParams sampleState 1 5).1 :=
  ⟨by decide, bc_bounds_track_current_mesh.2.2 sampleParams sampleState 1 5
    (by decide)⟩

/-- C6: within every loop iteration `t` of a run of `solve`, the emitted
events are, in order: the optional progress print, the integrator step,
the workload sample, the load-balancer call, the mesh rebuild, the
particle-store mesh update, the migration, and only after all of these
the optional snapshot writes.  (For `t = 0` the pre-loop snapshot writes,
also tagged with step index `0`, precede the iteration's events.) -/
theorem solve_step_operation_order :
    ∀ (P : SimParams) (s : SolverState) (tf : ℚ) (w : ℕ) (t : ℕ),
      t < (numStep tf s.dt).toNat →
      ∃ wk tm : ℚ,
        (((solve P s tf w).2.filter fun te => te.1 == t).map Prod.snd) =
          (if t = 0 then
            [Event.writeParticles 0 0, Event.writeDomain "domain_act" 0,
             Event.writeDomain "domain_lb" 0]
           else []) ++ iterationEvents s.rank s.haloMin w t wk tm := by
  intro P s tf w t ht
  simp only [solve, List.filter_append, List.map_append]
  obtain ⟨wk, tm', h⟩ := runSteps_filter_tag P w (tf / (numStep tf s.dt : ℚ))
    (List.range (numStep tf s.dt).toNat) s 0 (List.nodup_range _) t
    (List.mem_range.mpr ht)
  refine ⟨wk, tm', ?_⟩
  rw [h]
  by_cases h0 : t = 0
  · subst h0
    simp
  · have : ¬ ((0 : ℕ) == t) = true := by simpa using fun h => h0 h.symm
    simp [h0, this]

/-- C6 witness: the ordering conclusion at loop index `7` of a concrete
23-step run. -/
theorem solve_step_operation_order_witness :
    7 < (numStep (23/100) sampleState.dt).toNat ∧
    ∃ wk tm : ℚ,
      (((solve sampleParams sampleState (23/100) 5).2.filter
        fun te => te.1 == 7).map Prod.snd) =
        iterationEvents sampleState.rank sampleState.haloMin 5 7 wk tm := by
  have hlt : 7 < (numStep (23/100) sampleState.dt).toNat := by
    have hs : sampleState.dt = 1/100 := rfl
    rw [hs]
    norm_num [numStep, truncToInt]
  refine ⟨hlt, ?_⟩
  obtain ⟨wk, tm, h⟩ :=
    solve_step_operation_order sampleParams sampleState (23/100) 5 7 hlt
  rw [if_neg (by decide)] at h
  exact ⟨wk, tm, by rw [h]; simp⟩

/-- C7: particle migration (`communicateParticles`) conserves the total
particle count over all processes and moves every particle record
unchanged (the multiset of particles, hence every position, velocity,
deformation and mass, is preserved); moreover a whole loop iteration of
`solve` leaves the total count equal to its value before the step began. -/
theorem migration_conserves_particles :
    (∀ (R : ℕ) (f : Particle → ℕ) (dist : Dist),
      (∀ p ∈ dist.flatten, f p < R) →
      totalCount (communicateParticles R f dist) = totalCount dist ∧
      ∀ q : Particle,
        (communicateParticles R f dist).flatten.count q =
          dist.flatten.count q) ∧
    ∀ (P : SimParams) (w : ℕ) (d : ℚ) (t : ℕ) (s : SolverState) (tm : ℚ),
      (∀ m p, P.ownerF m p < P.numRanks) →
      totalCount (stepBody P w d t s tm).1.dist = totalCount s.dist := by
  refine ⟨fun R f dist h => ⟨totalCount_communicateParticles R f dist h,
    count_communicateParticles R f dist h⟩, stepBody_totalCount⟩

/-- C7 witness: migration of a concrete one-particle distribution to a
single rank conserves the total count. -/
theorem migration_conserves_particles_witness :
    totalCount (communicateParticles 1 (fun _ => 0) [[sampleParticle]]) =
      totalCount [[sampleParticle]] ∧
    totalCount [[sampleParticle]] = 1 :=
  ⟨(migration_conserves_particles.1 1 (fun _ => 0) [[sampleParticle]]
      fun _ _ => Nat.zero_lt_one).1, by decide⟩

/-- C8: the minimum halo width is the constant `3` fixed at construction
(`_halo_min(3)`): the constructed mesh is built with it, and every
per-step particle migration of every run passes exactly this width. -/
theorem halo_min_is_three :
    ∀ (a : SolverArgs) (P : SimParams) (tf : ℚ) (w : ℕ),
      (Solver.construct a).haloMin = 3 ∧
      (Solver.construct a).mesh.minHalo = 3 ∧
      ((solve P (Solver.construct a) tf w).2.map Prod.snd).filter
          Event.isMigrate =
        List.replicate (numStep tf a.dt).toNat (Event.migrate 3) := by
  intro a P tf w
  refine ⟨rfl, rfl, ?_⟩
  rw [migrate_filter_solve]
  rfl

/-- C10: the constructor always overwrites the caller-supplied boundary
condition's `min`/`max` with the mesh-derived bounds and keeps the rule;
the caller's bounds are never used (the constructed state does not depend
on them). -/
theorem construct_overwrites_bc_bounds :
    ∀ a : SolverArgs,
      (Solver.construct a).bc.rule = a.bc.rule ∧
      (Solver.construct a).bc.min =
        (Solver.construct a).mesh.minDomainGlobalNodeIndex ∧
      (Solver.construct a).bc.max =
        (Solver.construct a).mesh.maxDomainGlobalNodeIndex ∧
      ∀ mn mx : Idx3,
        Solver.construct
            { a with bc := { a.bc with min := mn, max := mx } } =
          Solver.construct a :=
  fun _ => ⟨rfl, rfl, rfl, fun _ _ => rfl⟩

/-- The device strings `createSolver` recognizes. -/
def recognizedBackends : List String := ["serial", "openmp", "cuda", "hip"]

/-- Whether the build enables the backend a recognized device string
names. -/
def backendEnabled (cfg : KokkosConfig) : String → Bool
  | "serial" => cfg.serialEnabled
  | "openmp" => cfg.openmpEnabled
  | "cuda" => cfg.cudaEnabled
  | "hip" => cfg.hipEnabled
  | _ => false

/-- C4: `createSolver` fails with `"invalid backend"` for every
unrecognized device string, fails with a descriptive message for a
recognized but disabled backend (in both cases without constructing any
solver state), and returns the constructed solver for a recognized,
enabled backend. -/
theorem createSolver_backend_dispatch :
    ∀ (cfg : KokkosConfig) (device : String) (a : SolverArgs),
      (device ∉ recognizedBackends →
        createSolver cfg device a = .error "invalid backend") ∧
      (device ∈ recognizedBackends → backendEnabled cfg device = true →
        createSolver cfg device a = .ok (Solver.construct a)) ∧
      (device ∈ recognizedBackends → backendEnabled cfg device = false →
        ∃ msg, createSolver cfg device a = .error msg) := by
  intro cfg device a
  refine ⟨?_, ?_, ?_⟩
  · intro h
    simp only [recognizedBackends, List.mem_cons, List.not_mem_nil,
      or_false, not_or] at h
    obtain ⟨h1, h2, h3, h4⟩ := h
    simp [createSolver, h1, h2, h3, h4]
  · intro h he
    have h4 : device = "serial" ∨ device = "openmp" ∨ device = "cuda" ∨
        device = "hip" := by simpa [recognizedBackends] using h
    rcases h4 with rfl | rfl | rfl | rfl <;>
      simp_all [createSolver, backendEnabled]
  · intro h he
    have h4 : device = "serial" ∨ device = "openmp" ∨ device = "cuda" ∨
        device = "hip" := by simpa [recognizedBackends] using h
    rcases h4 with rfl | rfl | rfl | rfl <;>
      simp_all [createSolver, backendEnabled]

/-- C4 witness: with only the serial backend enabled, `"serial"` yields a
solver, and the unrecognized string `"foo"` yields the fatal
`"invalid backend"` error. -/
theorem createSolver_backend_dispatch_witness :
    createSolver ⟨true, false, false, false⟩ "serial" sampleArgs =
      .ok (Solver.construct sampleArgs) ∧
    createSolver ⟨true, false, false, false⟩ "foo" sampleArgs =
      .error "invalid backend" :=
  ⟨(createSolver_backend_dispatch ⟨true, false, false, false⟩ "serial"
      sampleArgs).2.1 (by decide) rfl,
   (createSolver_backend_dispatch ⟨true, false, false, false⟩ "foo"
      sampleArgs).1 (by decide)⟩

end ExaMPM
